import Mathlib

/-!
# NewsOne backend: article workflow engine, shallow embedding

This file embeds the route handlers of the NewsOne news backend
(Express + Mongoose CRUD handlers) as pure Lean functions over explicit
store states, and proves the specification's testable properties about
them.

Modelling conventions:
* A Mongo document store is a `List` of records; `findOne`/`findById`
  become `List.find?`, `save` replaces the record with the same id,
  `findByIdAndDelete` filters it out, `create` appends.
* Request bodies are records of `Option` fields (`none` = key absent,
  mirroring JavaScript `undefined`).
* Clock reads (`new Date()`) are passed in as an explicit `now : Nat`;
  generated ids, generated passwords and password hashes (external
  collaborators per the spec) are passed in as parameters.
* A Mongoose lookup on a malformed ObjectId raises a `CastError`, which
  every handler's `catch` block turns into a 500 response; handlers that
  pre-validate the id return 404 instead.  `isValidObjectId` models
  `mongoose.Types.ObjectId.isValid` (24 hex characters, or any
  12-character string).
* Storage-layer schema validation (mongoose `required`, `enum` on
  categories) is an external collaborator in the spec and is not part of
  the handler embedding.
-/

namespace NewsOne

/-- An article document (`backend/models/Article.js`).  The mongoose
`timestamps` fields are reduced to `createdAt`, which the public listing
uses as an ordering fallback; `updatedAt` plays no role in any claim. -/
structure Article where
  id : String
  title : String
  summary : String
  content : String
  categories : List String
  imageUrl : String
  source : String
  status : String
  author : String
  publishedAt : Option Nat
  createdAt : Nat
deriving Repr, DecidableEq

/-- An editor/admin account document (`backend/models/Editor.js`). -/
structure Editor where
  id : String
  name : String
  email : String
  password : String
  role : String
deriving Repr, DecidableEq

/-- The authenticated caller context `req.user`, i.e. the JWT payload
verified by `authMiddleware`.  `generateToken` signs
`{ id: user._id, email: user.email, role: user.role }`, so the payload
has a key `id` but no key `_id`; `underscoreId` models the JavaScript
property access `req.user._id`, which yields `undefined` (`none`) on
such a payload. -/
structure ReqUser where
  underscoreId : Option String
  id : String
  email : String
  role : String
deriving Repr, DecidableEq

/-- Embeds `generateToken` (`backend/config/auth.js`): the signed payload holds
the account's database id under the key `id`, and has no `_id` key. -/
def generateTokenPayload (u : Editor) : ReqUser :=
  { underscoreId := none, id := u.id, email := u.email, role := u.role }

/-- JavaScript `String(x)` applied to a possibly-`undefined` string. -/
def jsString : Option String → String
  | none => "undefined"
  | some s => s

/-- JavaScript truthiness of a possibly-absent string field
(`undefined` and `""` are falsy). -/
def optTruthy : Option String → Bool
  | none => false
  | some s => s ≠ ""

/-- JavaScript `x || d` for a possibly-absent string `x`. -/
def jsOr (x : Option String) (d : String) : String :=
  match x with
  | none => d
  | some s => if s = "" then d else s

/-- Embeds `mongoose.Types.ObjectId.isValid`: a 24-character hex string, or any
12-character string (interpreted as 12 raw bytes). -/
def isValidObjectId (s : String) : Bool :=
  (s.length = 24 && s.data.all fun c =>
      c.isDigit || ('a' ≤ c && c ≤ 'f') || ('A' ≤ c && c ≤ 'F'))
  || s.length = 12

/-- JavaScript `String.prototype.toLowerCase` on one character,
restricted to the ASCII range all category/email data lives in. -/
def jsCharLower (c : Char) : Char :=
  if 'A' ≤ c ∧ c ≤ 'Z' then Char.ofNat (c.toNat + 32) else c

/-- JavaScript `String.prototype.toLowerCase` (ASCII range). -/
def jsToLower (s : String) : String := ⟨s.data.map jsCharLower⟩

/-- Embeds `String.prototype.trim` on a character list: drop leading and
trailing whitespace. -/
def jsTrimList (l : List Char) : List Char :=
  ((l.dropWhile Char.isWhitespace).reverse.dropWhile Char.isWhitespace).reverse

/-- JavaScript `String.prototype.trim`. -/
def jsTrim (s : String) : String := ⟨jsTrimList s.data⟩

/-- Embeds `String.prototype.split(",")` on a character list: `cur` holds the
current chunk reversed. -/
def splitCommaAux (cur : List Char) : List Char → List (List Char)
  | [] => [cur.reverse]
  | c :: cs =>
      if c = ',' then cur.reverse :: splitCommaAux [] cs
      else splitCommaAux (c :: cur) cs

/-- JavaScript `s.split(",")` (note `"".split(",") = [""]`). -/
def jsSplitComma (s : String) : List String :=
  (splitCommaAux [] s.data).map fun l => ⟨l⟩

/-- A JSON value that may sit under the `categories` key of a request
body: an array of strings, a string, or a value of any other type
(which `normalizeCategories` treats like an absent value). -/
inductive CatVal where
  | arr (xs : List String)
  | str (s : String)
  | other
deriving Repr, DecidableEq

/-- Embeds `[...new Set(cats)]`: deduplication keeping the first occurrence of
each element, in order.  `seen` accumulates the elements already kept. -/
def dedupFirstAux (seen : List String) : List String → List String
  | [] => []
  | x :: xs =>
      if x ∈ seen then dedupFirstAux seen xs
      else x :: dedupFirstAux (x :: seen) xs

/-- Deduplication preserving first occurrences (JavaScript `new Set`). -/
def dedupFirst (l : List String) : List String := dedupFirstAux [] l

/-- The raw candidate list collected by `normalizeCategories` before the
lowercase/trim pass: an array is taken as is; a string with non-blank
trim is split on commas, each part trimmed, empty parts dropped; any
other input (including an absent key) yields the empty list. -/
def rawCandidates : Option CatVal → List String
  | some (.arr xs) => xs
  | some (.str s) =>
      if jsTrim s ≠ "" then ((jsSplitComma s).map jsTrim).filter (· ≠ "")
      else []
  | some .other => []
  | none => []

/-- Embeds `normalizeCategories` (`backend/routes/editorRoutes.js`): collect
candidates, lowercase-and-trim each, deduplicate keeping first
occurrences, and fall back to `["latest"]` when the result is empty. -/
def normalizeCategories (input : Option CatVal) : List String :=
  let cats := rawCandidates input
  let cats := cats.map fun c => jsTrim (jsToLower c)
  let cats := dedupFirst cats
  if cats.length = 0 then ["latest"] else cats

example : normalizeCategories none = ["latest"] := by decide
example : normalizeCategories (some (.arr [])) = ["latest"] := by decide
example : normalizeCategories (some (.str "")) = ["latest"] := by decide
example : normalizeCategories (some (.str " Tech ,tech, LAW ")) = ["tech", "law"] := by decide
example : normalizeCategories (some (.arr ["", "Tech"])) = ["", "tech"] := by decide

/-- An HTTP response with payload type `α`: `res.status(c).json({...})`
with either a payload object or an error `{message}` body. -/
inductive Resp (α : Type) where
  | ok (code : Nat) (payload : α)
  | err (code : Nat) (message : String)
deriving Repr, DecidableEq

/-- Embeds `article.save()`: write the mutated document back,
replacing the stored document with the same id. -/
def saveArticle (store : List Article) (a : Article) : List Article :=
  store.map fun x => if x.id = a.id then a else x

/-- Embeds `editor.save()`. -/
def saveEditor (store : List Editor) (e : Editor) : List Editor :=
  store.map fun x => if x.id = e.id then e else x

/-- The three values of the article status enumeration. -/
def allowedStatuses : List String := ["draft", "in_review", "published"]

/-- Request body of `POST /api/editor/articles` and of
`PUT /api/editor/articles/:id` (the handlers destructure the same seven
keys). -/
structure ArticleBody where
  title : Option String
  summary : Option String
  content : Option String
  categories : Option CatVal
  imageUrl : Option String
  source : Option String
  status : Option String
deriving Repr, DecidableEq

/-- A request body with every key absent. -/
def ArticleBody.empty : ArticleBody :=
  ⟨none, none, none, none, none, none, none⟩

/-- Embeds `POST /api/editor/articles` (`editorRoutes.js`): create an article
for the logged-in editor.  `newId` is the id the store assigns and
`now` the clock reading.  Note `status: status || "draft"` versus
`publishedAt: status === "published" ? new Date() : undefined`. -/
def createArticle (store : List Article) (authorId : String)
    (b : ArticleBody) (newId : String) (now : Nat) :
    Resp Article × List Article :=
  if ¬ (optTruthy b.title ∧ optTruthy b.content) then
    (.err 400 "Title and content are required", store)
  else
    let art : Article :=
      { id := newId
        title := b.title.getD ""
        summary := jsOr b.summary ""
        content := b.content.getD ""
        categories := normalizeCategories b.categories
        imageUrl := jsOr b.imageUrl ""
        source := jsOr b.source ""
        status := jsOr b.status "draft"
        author := authorId
        publishedAt := if b.status = some "published" then some now else none
        createdAt := now }
    (.ok 201 art, store ++ [art])

/-- Embeds `PUT /api/editor/articles/:id` (`editorRoutes.js`): partial update
of an article owned by the logged-in editor.  The lookup is
`Article.findOne({_id: req.params.id, author: req.user.id})` with no
prior ObjectId validation, so a malformed id raises a `CastError`
caught as a 500.  An invalid `status` value returns 400 before
`article.save()` runs, so the store is unchanged on that path. -/
def updateArticle (store : List Article) (callerId : String)
    (articleId : String) (b : ArticleBody) (now : Nat) :
    Resp Article × List Article :=
  if ¬ isValidObjectId articleId then (.err 500 "Server error", store)
  else
    match store.find? fun a => a.id = articleId ∧ a.author = callerId with
    | none => (.err 404 "Article not found", store)
    | some article =>
      let article := { article with
        title := b.title.getD article.title
        summary := b.summary.getD article.summary
        content := b.content.getD article.content
        imageUrl := b.imageUrl.getD article.imageUrl
        source := b.source.getD article.source }
      let article :=
        match b.categories with
        | none => article
        | some c => { article with categories := normalizeCategories (some c) }
      match b.status with
      | none => (.ok 200 article, saveArticle store article)
      | some s =>
        if s ∉ allowedStatuses then (.err 400 "Invalid status value", store)
        else
          let article := { article with status := s }
          let article :=
            if s = "published" ∧ article.publishedAt = none then
              { article with publishedAt := some now }
            else article
          (.ok 200 article, saveArticle store article)

/-- Embeds `GET /api/editor/articles/:id` (`editorRoutes.js`): same
owner-scoped lookup, read-only; no ObjectId validation, so a malformed
id is a 500. -/
def editorGetArticle (store : List Article) (callerId : String)
    (articleId : String) : Resp Article :=
  if ¬ isValidObjectId articleId then .err 500 "Server error"
  else
    match store.find? fun a => a.id = articleId ∧ a.author = callerId with
    | none => .err 404 "Article not found"
    | some article => .ok 200 article

/-- Embeds `requireAdmin` (`adminRoutes.js`): 403 unless `req.user.role` is
`"admin"`. -/
def isAdmin (u : ReqUser) : Bool := u.role = "admin"

/-- Embeds `GET /api/admin/articles/:id` (`adminRoutes.js`): validates the
ObjectId first (`mongoose.Types.ObjectId.isValid`) and treats a
malformed id as 404. -/
def adminGetArticle (store : List Article) (user : ReqUser)
    (articleId : String) : Resp Article :=
  if ¬ isAdmin user then .err 403 "Admin access only"
  else if ¬ isValidObjectId articleId then .err 404 "Article not found"
  else
    match store.find? fun a => a.id = articleId with
    | none => .err 404 "Article not found"
    | some article => .ok 200 article

/-- Embeds `PUT /api/admin/articles/:id/status` (`adminRoutes.js`): admin-only
status transition.  The status value is checked first (400), then the
ObjectId (404), then the lookup (404); on `"published"` the handler
sets `article.publishedAt = new Date()` unconditionally — there is no
`!article.publishedAt` guard on this path. -/
def adminSetStatus (store : List Article) (user : ReqUser)
    (articleId : String) (status : Option String) (now : Nat) :
    Resp Article × List Article :=
  if ¬ isAdmin user then (.err 403 "Admin access only", store)
  else
    match status with
    | none => (.err 400 "Invalid status value supplied", store)
    | some s =>
      if s ∉ allowedStatuses then (.err 400 "Invalid status value supplied", store)
      else if ¬ isValidObjectId articleId then (.err 404 "Article not found", store)
      else
        match store.find? fun a => a.id = articleId with
        | none => (.err 404 "Article not found", store)
        | some article =>
          let article := { article with status := s }
          let article :=
            if s = "published" then { article with publishedAt := some now }
            else article
          (.ok 200 article, saveArticle store article)

/-- Insert into a list sorted by the comparator `le` (front = first in
the response). -/
def insertSorted (le : Article → Article → Bool) (a : Article) :
    List Article → List Article
  | [] => [a]
  | b :: bs => if le a b then a :: b :: bs else b :: insertSorted le a bs

/-- Insertion sort by `le`. -/
def sortArticles (le : Article → Article → Bool) : List Article → List Article
  | [] => []
  | a :: as => insertSorted le a (sortArticles le as)

/-- Embeds the `publishedAt`-descending sort comparator: most recent publication
first; documents lacking `publishedAt` (Mongo `null`, smallest in
ascending order) come last under the descending sort. -/
def publishedOrder (a b : Article) : Bool :=
  let key : Article → Nat × Nat := fun x =>
    (match x.publishedAt with | some t => t + 1 | none => 0, x.createdAt)
  (key b).1 < (key a).1 ∨ ((key b).1 = (key a).1 ∧ (key b).2 ≤ (key a).2)

/-- Case-insensitive membership of `needle` in `hay`, the effect of the
`new RegExp(search, "i")` title filter for a literal search term. -/
def containsCI (hay needle : String) : Bool :=
  let n := (jsToLower needle).data
  let h := (jsToLower hay).data
  (List.range (h.length + 1)).any fun i => n.isPrefixOf (h.drop i)

/-- Embeds `GET /api/public/articles` (`publicRoutes.js`): the filter always
pins `status: "published"`; `category` is a case-insensitive exact
match against any element of `categories` (`^cat$` with the `i` flag);
`search` is a case-insensitive title match. -/
def publicListArticles (store : List Article) (category : Option String)
    (search : Option String) : List Article :=
  let filtered := store.filter fun a =>
    decide (a.status = "published")
    && (match category with
        | none => true
        | some c => a.categories.any fun t => jsToLower t = jsToLower c)
    && (match search with
        | none => true
        | some s => containsCI a.title s)
  sortArticles publishedOrder filtered

/-- Embeds `GET /api/public/articles/:id` (`publicRoutes.js`):
`Article.findOne({_id: id, status: "published"})` with no prior
ObjectId validation — a malformed id raises a `CastError` caught as a
500. -/
def publicGetArticle (store : List Article) (articleId : String) :
    Resp Article :=
  if ¬ isValidObjectId articleId then .err 500 "Server error"
  else
    match store.find? fun a => a.id = articleId ∧ a.status = "published" with
    | none => .err 404 "Article not found"
    | some article => .ok 200 article

/-- Request body of `POST /api/admin/editors`.  The handler
destructures only `name`, `email` and `password`; a `role` key, if the
client sends one, is never read. -/
structure CreateEditorBody where
  name : Option String
  email : Option String
  password : Option String
  role : Option String
deriving Repr, DecidableEq

/-- Embeds `POST /api/admin/editors` (`adminRoutes.js`): create an editor
account.  The duplicate check is `Editor.findOne({ email })` — an exact
(case-sensitive) match on the submitted email, with no lowercasing.
The new account is stored with `role: "user"` regardless of the
request; `hashed` is the externally computed password hash and `newId`
the id the store assigns. -/
def createEditor (store : List Editor) (user : ReqUser)
    (b : CreateEditorBody) (hashed newId : String) :
    Resp Editor × List Editor :=
  if ¬ isAdmin user then (.err 403 "Admin access only", store)
  else if ¬ (optTruthy b.name ∧ optTruthy b.email ∧ optTruthy b.password) then
    (.err 400 "Name, email and password are required", store)
  else if store.any fun x => x.email = b.email.getD "" then
    (.err 400 "Email already in use", store)
  else
    let editor : Editor :=
      { id := newId
        name := b.name.getD ""
        email := b.email.getD ""
        password := hashed
        role := "user" }
    (.ok 201 editor, store ++ [editor])

/-- Embeds `PUT /api/admin/editors/:id` (`adminRoutes.js`): update an
account's name/email/role.  `Editor.findById` runs with no prior
ObjectId validation (malformed id → `CastError` → 500).  The email
duplicate check is the exact-match
`Editor.findOne({email, _id: {$ne: editor._id}})`.  `if (role)
editor.role = role` lets an admin set any role value, including
`"admin"`. -/
def updateEditor (store : List Editor) (user : ReqUser)
    (targetId : String) (name email role : Option String) :
    Resp Editor × List Editor :=
  if ¬ isAdmin user then (.err 403 "Admin access only", store)
  else if ¬ isValidObjectId targetId then (.err 500 "Server error", store)
  else
    match store.find? fun x => x.id = targetId with
    | none => (.err 404 "Editor not found", store)
    | some editor =>
      let emailChange :=
        if optTruthy email ∧ email ≠ some editor.email then email else none
      match emailChange with
      | some e =>
        if store.any fun x => x.email = e ∧ x.id ≠ editor.id then
          (.err 400 "Email is already used by another user", store)
        else
          let editor := { editor with email := e }
          let editor := if optTruthy name then { editor with name := name.getD "" } else editor
          let editor := if optTruthy role then { editor with role := role.getD "" } else editor
          (.ok 200 editor, saveEditor store editor)
      | none =>
        let editor := if optTruthy name then { editor with name := name.getD "" } else editor
        let editor := if optTruthy role then { editor with role := role.getD "" } else editor
        (.ok 200 editor, saveEditor store editor)

/-- Embeds `PUT /api/admin/editors/:id/reset-password` (`adminRoutes.js`):
replace the account's password hash with the hash of a freshly
generated password; no ObjectId validation before `findById`. -/
def resetPassword (store : List Editor) (user : ReqUser)
    (targetId : String) (newHashed : String) :
    Resp String × List Editor :=
  if ¬ isAdmin user then (.err 403 "Admin access only", store)
  else if ¬ isValidObjectId targetId then (.err 500 "Server error", store)
  else
    match store.find? fun x => x.id = targetId with
    | none => (.err 404 "Editor not found", store)
    | some editor =>
      let editor := { editor with password := newHashed }
      (.ok 200 editor.email, saveEditor store editor)

/-- Embeds `DELETE /api/admin/editors/:id` (`adminRoutes.js`): the
self-deletion guard compares `String(req.user._id)` with
`String(req.params.id)` — but the JWT payload stores the account id
under `id`, not `_id`, so the left-hand side is the string
`"undefined"` for every token-authenticated caller.
`Editor.findByIdAndDelete` then runs with no ObjectId validation
(malformed id → `CastError` → 500). -/
def deleteEditor (store : List Editor) (user : ReqUser)
    (targetId : String) : Resp Unit × List Editor :=
  if ¬ isAdmin user then (.err 403 "Admin access only", store)
  else if jsString user.underscoreId = targetId then
    (.err 400 "You cannot delete your own admin account", store)
  else if ¬ isValidObjectId targetId then (.err 500 "Server error", store)
  else
    match store.find? fun x => x.id = targetId with
    | none => (.err 404 "Editor not found", store)
    | some _ => (.ok 200 (), store.filter fun x => x.id ≠ targetId)

/-- Request body of `PUT /api/editor/me`. -/
structure UpdateMeBody where
  name : Option String
  email : Option String
deriving Repr, DecidableEq

/-- Embeds `PUT /api/editor/me` (`editorRoutes.js`): update the caller's own
name/email.  Same exact-match (case-sensitive) email duplicate check as
the admin path: `Editor.findOne({email, _id: {$ne: editor._id}})`. -/
def updateMe (store : List Editor) (callerId : String)
    (b : UpdateMeBody) : Resp Editor × List Editor :=
  match store.find? fun x => x.id = callerId with
  | none => (.err 404 "Editor not found", store)
  | some editor =>
    let emailChange :=
      if optTruthy b.email ∧ b.email ≠ some editor.email then b.email else none
    match emailChange with
    | some e =>
      if store.any fun x => x.email = e ∧ x.id ≠ editor.id then
        (.err 400 "Email is already in use by another user", store)
      else
        let editor := { editor with email := e }
        let editor := if optTruthy b.name then { editor with name := b.name.getD "" } else editor
        (.ok 200 editor, saveEditor store editor)
    | none =>
      let editor := if optTruthy b.name then { editor with name := b.name.getD "" } else editor
      (.ok 200 editor, saveEditor store editor)

/-- Embeds `PUT /api/editor/change-password` (`editorRoutes.js`):
`comparePassword` is the external bcrypt collaborator, passed in as the
oracle `cmp`; `newHashed` is the hash of the new password. -/
def changePassword (store : List Editor) (callerId : String)
    (currentPassword newPassword : Option String)
    (cmp : String → String → Bool) (newHashed : String) :
    Resp Unit × List Editor :=
  if ¬ (optTruthy currentPassword ∧ optTruthy newPassword) then
    (.err 400 "Current and new password are required", store)
  else
    match store.find? fun x => x.id = callerId with
    | none => (.err 404 "Editor not found", store)
    | some editor =>
      if ¬ cmp (currentPassword.getD "") editor.password then
        (.err 400 "Current password is incorrect", store)
      else
        let editor := { editor with password := newHashed }
        (.ok 200 (), saveEditor store editor)

/-- Embeds the `POST /api/auth/login` account lookup (`authRoutes.js`):
`Editor.findOne({ email: email.toLowerCase() })` — the only path that
lowercases the email before comparing. -/
def loginLookup (store : List Editor) (email : String) : Option Editor :=
  store.find? fun x => x.email = jsToLower email

/-- Embeds `createInitialAdmin` (`backend/index.js`): seed exactly one admin
account when none exists. -/
def createInitialAdmin (store : List Editor) (hashed newId : String) :
    List Editor :=
  match store.find? fun x => x.role = "admin" with
  | some _ => store
  | none =>
    store ++ [{ id := newId, name := "Super Admin",
                email := "admin@newsone.live", password := hashed,
                role := "admin" }]

/-! ## Helper lemmas -/

theorem mem_dedupFirstAux (seen l : List String) (x : String) :
    x ∈ dedupFirstAux seen l ↔ x ∈ l ∧ x ∉ seen := by
  induction l generalizing seen with
  | nil => simp [dedupFirstAux]
  | cons a as ih =>
    by_cases h : a ∈ seen
    · simp only [dedupFirstAux, if_pos h, ih, List.mem_cons]
      constructor
      · exact fun ⟨hx, hs⟩ => ⟨Or.inr hx, hs⟩
      · rintro ⟨hx | hx, hs⟩
        · exact absurd (hx ▸ h) hs
        · exact ⟨hx, hs⟩
    · simp only [dedupFirstAux, if_neg h, List.mem_cons, ih, List.mem_cons] at *
      constructor
      · rintro (rfl | ⟨hx, hs⟩)
        · exact ⟨Or.inl rfl, h⟩
        · exact ⟨Or.inr hx, fun hx2 => hs (Or.inr hx2)⟩
      · rintro ⟨rfl | hx, hs⟩
        · exact Or.inl rfl
        · by_cases hxa : x = a
          · exact Or.inl hxa
          · exact Or.inr ⟨hx, fun hc => hc.elim hxa hs⟩

theorem nodup_dedupFirstAux (seen l : List String) :
    (dedupFirstAux seen l).Nodup := by
  induction l generalizing seen with
  | nil => simp [dedupFirstAux]
  | cons a as ih =>
    by_cases h : a ∈ seen
    · simpa [dedupFirstAux, h] using ih seen
    · simp only [dedupFirstAux, if_neg h, List.nodup_cons]
      refine ⟨fun hmem => ?_, ih _⟩
      rw [mem_dedupFirstAux] at hmem
      exact hmem.2 (List.mem_cons_self a seen)

theorem dedupFirstAux_sublist (seen l : List String) :
    (dedupFirstAux seen l).Sublist l := by
  induction l generalizing seen with
  | nil => simp [dedupFirstAux]
  | cons a as ih =>
    by_cases h : a ∈ seen
    · simp only [dedupFirstAux, if_pos h]
      exact (ih seen).trans (List.sublist_cons_self a as)
    · simp only [dedupFirstAux, if_neg h]
      exact (ih (a :: seen)).cons₂ a

theorem mem_dedupFirst (l : List String) (x : String) :
    x ∈ dedupFirst l ↔ x ∈ l := by
  simp [dedupFirst, mem_dedupFirstAux]

theorem nodup_dedupFirst (l : List String) : (dedupFirst l).Nodup :=
  nodup_dedupFirstAux [] l

theorem dedupFirst_sublist (l : List String) : (dedupFirst l).Sublist l :=
  dedupFirstAux_sublist [] l

theorem dedupFirst_eq_nil_iff (l : List String) :
    dedupFirst l = [] ↔ l = [] := by
  cases l with
  | nil => simp [dedupFirst, dedupFirstAux]
  | cons a as => simp [dedupFirst, dedupFirstAux]

/-- Element characterisation of `normalizeCategories`: an element of the
output is the lowercase-trim image of some candidate, or the fallback
`"latest"` when the candidate image list is empty. -/
theorem mem_normalizeCategories (input : Option CatVal) (c : String) :
    c ∈ normalizeCategories input ↔
      (c ∈ (rawCandidates input).map (fun d => jsTrim (jsToLower d)) ∨
        ((rawCandidates input).map (fun d => jsTrim (jsToLower d)) = []
          ∧ c = "latest")) := by
  unfold normalizeCategories
  by_cases h :
      (dedupFirst ((rawCandidates input).map fun d => jsTrim (jsToLower d))).length = 0
  · have hnil : (rawCandidates input).map (fun d => jsTrim (jsToLower d)) = [] := by
      rw [← dedupFirst_eq_nil_iff]
      exact List.length_eq_zero.mp h
    simp [h, hnil, dedupFirst, dedupFirstAux]
  · have hne : ¬ (rawCandidates input).map (fun d => jsTrim (jsToLower d)) = [] := by
      intro hc
      exact h (by simp [(dedupFirst_eq_nil_iff _).mpr hc])
    simp [h, mem_dedupFirst, hne]

theorem normalizeCategories_ne_nil (input : Option CatVal) :
    normalizeCategories input ≠ [] := by
  unfold normalizeCategories
  by_cases h :
      (dedupFirst ((rawCandidates input).map fun d => jsTrim (jsToLower d))).length = 0
  · simp [h]
  · simp only [if_neg h]
    intro hc
    exact h (by simp [hc])

theorem normalizeCategories_nodup (input : Option CatVal) :
    (normalizeCategories input).Nodup := by
  unfold normalizeCategories
  by_cases h :
      (dedupFirst ((rawCandidates input).map fun d => jsTrim (jsToLower d))).length = 0
  · simp [h]
  · simpa [h] using nodup_dedupFirst _

theorem mem_insertSorted (le : Article → Article → Bool) (a x : Article)
    (l : List Article) : x ∈ insertSorted le a l ↔ x = a ∨ x ∈ l := by
  induction l with
  | nil => simp [insertSorted]
  | cons b bs ih =>
    by_cases h : le a b
    · simp [insertSorted, h]
    · simp only [insertSorted, if_neg h, List.mem_cons, ih]
      tauto

theorem mem_sortArticles (le : Article → Article → Bool) (x : Article)
    (l : List Article) : x ∈ sortArticles le l ↔ x ∈ l := by
  induction l with
  | nil => simp [sortArticles]
  | cons a as ih => simp [sortArticles, mem_insertSorted, ih]

theorem mem_saveEditor (store : List Editor) (d e : Editor)
    (h : e ∈ saveEditor store d) : e = d ∨ e ∈ store := by
  simp only [saveEditor, List.mem_map] at h
  obtain ⟨x, hx, hxe⟩ := h
  by_cases hid : x.id = d.id
  · simp [hid] at hxe; exact Or.inl hxe.symm
  · simp [hid] at hxe; exact Or.inr (hxe ▸ hx)

/-! ## Concrete fixtures used by counterexamples and witnesses -/

/-- An admin caller context as produced by verifying a login token. -/
def adminUser : ReqUser :=
  { underscoreId := none, id := "cccccccccccccccccccccccc",
    email := "admin@newsone.live", role := "admin" }

/-- A published article whose `publishedAt` was stamped at time 5. -/
def artPub : Article :=
  { id := "aaaaaaaaaaaaaaaaaaaaaaaa", title := "T", summary := "",
    content := "C", categories := ["latest"], imageUrl := "", source := "",
    status := "published", author := "bbbbbbbbbbbbbbbbbbbbbbbb",
    publishedAt := some 5, createdAt := 1 }

/-- The stored admin account matching `adminUser`. -/
def adminAccount : Editor :=
  { id := "cccccccccccccccccccccccc", name := "Super Admin",
    email := "admin@newsone.live", password := "h", role := "admin" }

/-- An ordinary editor account. -/
def userAccount : Editor :=
  { id := "dddddddddddddddddddddddd", name := "B", email := "a@b.com",
    password := "h", role := "user" }

/-! ## Claim theorems -/

/-- C2 counterexample: the claim says empty candidates are dropped for
every category input, but for an array input the `filter(Boolean)` pass
never runs: `normalizeCategories(["", "Tech"])` keeps the empty
candidate and returns `["", "tech"]`. -/
theorem normalizeCategories_array_keeps_empty :
    normalizeCategories (some (.arr ["", "Tech"])) = ["", "tech"]
    ∧ "" ∈ normalizeCategories (some (.arr ["", "Tech"])) := by decide

/-- C2 (amended): `normalizeCategories` always yields a non-empty,
duplicate-free list; `normalize([]) = normalize("") = normalize(absent)
= ["latest"]`; every output element is the lowercase-trim image of an
input candidate (or the fallback `"latest"` exactly when the candidate
image list is empty); the output preserves the first-occurrence order
of the candidate images; and the empty-candidate filter runs only on
the comma-separated-string branch (so string inputs contribute no empty
candidate, while array inputs may, as the counterexample shows). -/
theorem normalizeCategories_spec :
    (∀ input : Option CatVal, normalizeCategories input ≠ [])
    ∧ (∀ input : Option CatVal, (normalizeCategories input).Nodup)
    ∧ normalizeCategories (some (.arr [])) = ["latest"]
    ∧ normalizeCategories (some (.str "")) = ["latest"]
    ∧ normalizeCategories none = ["latest"]
    ∧ (∀ (input : Option CatVal) (c : String),
        c ∈ normalizeCategories input ↔
          (c ∈ (rawCandidates input).map (fun d => jsTrim (jsToLower d)) ∨
            ((rawCandidates input).map (fun d => jsTrim (jsToLower d)) = []
              ∧ c = "latest")))
    ∧ (∀ input : Option CatVal,
        normalizeCategories input = ["latest"] ∨
        (normalizeCategories input).Sublist
          ((rawCandidates input).map fun d => jsTrim (jsToLower d)))
    ∧ (∀ s : String, "" ∉ rawCandidates (some (.str s))) := by
  refine ⟨normalizeCategories_ne_nil, normalizeCategories_nodup,
    by decide, by decide, by decide, mem_normalizeCategories, ?_, ?_⟩
  · intro input
    unfold normalizeCategories
    by_cases h :
        (dedupFirst ((rawCandidates input).map fun d => jsTrim (jsToLower d))).length = 0
    · simp [h]
    · simp only [if_neg h]
      exact Or.inr (dedupFirst_sublist _)
  · intro s
    simp only [rawCandidates]
    by_cases h : jsTrim s ≠ ""
    · simp [h]
    · simp [h]

/-- Witness for `normalizeCategories_spec` at concrete inputs. -/
theorem normalizeCategories_spec_witness :
    normalizeCategories (some (.str "Tech, ,LAW")) ≠ []
    ∧ "" ∉ rawCandidates (some (.str "Tech, ,LAW")) :=
  ⟨normalizeCategories_spec.1 _,
   normalizeCategories_spec.2.2.2.2.2.2.2 "Tech, ,LAW"⟩

/-- C1 evidence: the admin `PUT /articles/:id/status` handler re-stamps
`publishedAt` unconditionally on entering `published` — there is no
`!article.publishedAt` guard on this path (unlike the owner update
path), so a second publish at time 9 overwrites the original timestamp
5, violating the spec's sticky-`publishedAt` invariant which the spec
declares to be the contract. -/
theorem adminSetStatus_restamps_publishedAt :
    artPub.publishedAt = some 5
    ∧ artPub.status = "published"
    ∧ (adminSetStatus [artPub] adminUser "aaaaaaaaaaaaaaaaaaaaaaaa"
        (some "published") 9).2.map Article.publishedAt = [some 9] := by decide

/-- C5 evidence: the self-deletion guard compares `String(req.user._id)`
to the target id, but a token-authenticated caller's `req.user` holds
the account id under `id`, not `_id`, so the comparison is
`"undefined" === editorId` and never fires.  An admin deleting their
own account therefore succeeds and empties the identity store,
contradicting the handler's own comment ("prevent admin from deleting
themselves"). -/
theorem deleteEditor_self_deletion_succeeds :
    (deleteEditor [adminAccount] (generateTokenPayload adminAccount)
        "cccccccccccccccccccccccc") = (.ok 200 (), [])
    ∧ (generateTokenPayload adminAccount).id = "cccccccccccccccccccccccc" := by decide

/-- C3: updating an article owned by someone else (no article with this
id is owned by the caller) fails with 404 "Article not found" and
leaves the store unchanged, and the response is identical to the
response for a store from which the article is absent entirely. -/
theorem updateArticle_ownership_isolation
    (store : List Article) (callerA articleId : String)
    (b : ArticleBody) (now : Nat)
    (hvalid : isValidObjectId articleId = true)
    (hother : ∀ a ∈ store, a.id = articleId → a.author ≠ callerA) :
    updateArticle store callerA articleId b now
      = (.err 404 "Article not found", store)
    ∧ (updateArticle store callerA articleId b now).1
      = (updateArticle (store.filter fun a => a.id ≠ articleId)
          callerA articleId b now).1 := by
  have hfind : store.find? (fun a => a.id = articleId ∧ a.author = callerA) = none := by
    rw [List.find?_eq_none]
    intro a ha
    simp only [decide_eq_true_eq, not_and]
    intro hid
    exact hother a ha hid
  have hfind2 : (store.filter fun a => a.id ≠ articleId).find?
      (fun a => a.id = articleId ∧ a.author = callerA) = none := by
    rw [List.find?_eq_none]
    intro a ha
    simp only [List.mem_filter, decide_eq_true_eq] at ha
    simp only [decide_eq_true_eq, not_and]
    intro hid
    exact absurd hid ha.2
  have h2 : updateArticle (store.filter fun a => a.id ≠ articleId)
      callerA articleId b now
      = (.err 404 "Article not found", store.filter fun a => a.id ≠ articleId) := by
    unfold updateArticle
    rw [if_neg (not_not_intro hvalid), hfind2]
  simp only [Bool.decide_and] at hfind
  have h1 : updateArticle store callerA articleId b now
      = (.err 404 "Article not found", store) := by
    simp [updateArticle, hvalid, hfind]
  exact ⟨h1, by rw [h1, h2]⟩

/-- Witness for `updateArticle_ownership_isolation`: caller
`adminUser.id` does not own `artPub`. -/
theorem updateArticle_ownership_isolation_witness :
    updateArticle [artPub] "cccccccccccccccccccccccc"
        "aaaaaaaaaaaaaaaaaaaaaaaa" ArticleBody.empty 9
      = (.err 404 "Article not found", [artPub]) :=
  (updateArticle_ownership_isolation [artPub] "cccccccccccccccccccccccc"
    "aaaaaaaaaaaaaaaaaaaaaaaa" ArticleBody.empty 9 (by decide) (by decide)).1

/-- C4: the public listing only ever returns `published` articles (the
filter pins `status: "published"` for every store state and every
category/search parameter), and the public single-article read of an
article that is not published (no published article carries the id)
fails with 404. -/
theorem public_visibility_isolation :
    (∀ (store : List Article) (category search : Option String) (a : Article),
        a ∈ publicListArticles store category search → a.status = "published")
    ∧ (∀ (store : List Article) (articleId : String),
        isValidObjectId articleId = true →
        (∀ a ∈ store, a.id = articleId → a.status ≠ "published") →
        publicGetArticle store articleId = .err 404 "Article not found") := by
  constructor
  · intro store category search a ha
    simp only [publicListArticles, mem_sortArticles, List.mem_filter] at ha
    have := ha.2
    simp only [Bool.and_eq_true, decide_eq_true_eq] at this
    exact this.1.1
  · intro store articleId hvalid hnp
    have hfind : store.find? (fun a => a.id = articleId ∧ a.status = "published") = none := by
      rw [List.find?_eq_none]
      intro a ha
      simp only [decide_eq_true_eq, not_and]
      intro hid
      exact hnp a ha hid
    simp only [Bool.decide_and] at hfind
    simp [publicGetArticle, hvalid, hfind]

/-- Witness for `public_visibility_isolation`: a single-element store
holding a draft article. -/
theorem public_visibility_isolation_witness :
    publicGetArticle [{ artPub with status := "draft" }]
        "aaaaaaaaaaaaaaaaaaaaaaaa" = .err 404 "Article not found" :=
  public_visibility_isolation.2 [{ artPub with status := "draft" }]
    "aaaaaaaaaaaaaaaaaaaaaaaa" (by decide) (by decide)

/-- C7: for an article the caller owns, the update handler applies
exactly the request fields that are present (`!== undefined`): an
omitted field keeps its stored value and a present field overwrites it,
including with an empty value (`Option.getD` semantics: `some ""`
overwrites with `""`); a present invalid status yields 400 with the
store untouched (the early return skips `article.save()`); a present
valid status is applied, stamping `publishedAt` only when transitioning
into `published` with `publishedAt` previously unset. -/
theorem updateArticle_partial_update_semantics
    (store : List Article) (caller articleId : String) (a : Article)
    (b : ArticleBody) (now : Nat)
    (hvalid : isValidObjectId articleId = true)
    (hfind : store.find? (fun x => x.id = articleId ∧ x.author = caller) = some a) :
    (∀ s, b.status = some s → s ∉ allowedStatuses →
      updateArticle store caller articleId b now
        = (.err 400 "Invalid status value", store))
    ∧ (∀ s, b.status = some s → s ∈ allowedStatuses →
      ∃ a', updateArticle store caller articleId b now
          = (.ok 200 a', saveArticle store a')
        ∧ a'.title = b.title.getD a.title
        ∧ a'.summary = b.summary.getD a.summary
        ∧ a'.content = b.content.getD a.content
        ∧ a'.imageUrl = b.imageUrl.getD a.imageUrl
        ∧ a'.source = b.source.getD a.source
        ∧ a'.categories = (match b.categories with
            | none => a.categories
            | some c => normalizeCategories (some c))
        ∧ a'.status = s
        ∧ a'.publishedAt
            = (if s = "published" ∧ a.publishedAt = none then some now
               else a.publishedAt)
        ∧ a'.id = a.id ∧ a'.author = a.author)
    ∧ (b.status = none →
      ∃ a', updateArticle store caller articleId b now
          = (.ok 200 a', saveArticle store a')
        ∧ a'.title = b.title.getD a.title
        ∧ a'.summary = b.summary.getD a.summary
        ∧ a'.content = b.content.getD a.content
        ∧ a'.imageUrl = b.imageUrl.getD a.imageUrl
        ∧ a'.source = b.source.getD a.source
        ∧ a'.categories = (match b.categories with
            | none => a.categories
            | some c => normalizeCategories (some c))
        ∧ a'.status = a.status
        ∧ a'.publishedAt = a.publishedAt
        ∧ a'.id = a.id ∧ a'.author = a.author) := by
  refine ⟨?_, ?_, ?_⟩
  · intro s hs hns
    unfold updateArticle
    rw [if_neg (not_not_intro hvalid), hfind]
    cases hc : b.categories <;> simp only [hs, hc] <;> rw [if_pos hns]
  · intro s hs hmem
    have hnn : ¬ s ∉ allowedStatuses := not_not_intro hmem
    unfold updateArticle
    rw [if_neg (not_not_intro hvalid), hfind]
    cases hc : b.categories with
    | none =>
      simp only [hs, hc]
      rw [if_neg hnn]
      by_cases hp : s = "published" ∧ a.publishedAt = none
      · rw [if_pos hp]
        exact ⟨_, rfl, rfl, rfl, rfl, rfl, rfl, rfl, rfl, by rw [if_pos hp],
          rfl, rfl⟩
      · rw [if_neg hp]
        exact ⟨_, rfl, rfl, rfl, rfl, rfl, rfl, rfl, rfl, by rw [if_neg hp],
          rfl, rfl⟩
    | some c =>
      simp only [hs, hc]
      rw [if_neg hnn]
      by_cases hp : s = "published" ∧ a.publishedAt = none
      · rw [if_pos hp]
        exact ⟨_, rfl, rfl, rfl, rfl, rfl, rfl, rfl, rfl, by rw [if_pos hp],
          rfl, rfl⟩
      · rw [if_neg hp]
        exact ⟨_, rfl, rfl, rfl, rfl, rfl, rfl, rfl, rfl, by rw [if_neg hp],
          rfl, rfl⟩
  · intro hs
    unfold updateArticle
    rw [if_neg (not_not_intro hvalid), hfind]
    cases hc : b.categories with
    | none =>
      simp only [hs, hc]
      exact ⟨_, rfl, rfl, rfl, rfl, rfl, rfl, rfl, rfl, rfl, rfl, rfl⟩
    | some c =>
      simp only [hs, hc]
      exact ⟨_, rfl, rfl, rfl, rfl, rfl, rfl, rfl, rfl, rfl, rfl, rfl⟩

/-- Witness for `updateArticle_partial_update_semantics`: the owner
sends an invalid status value. -/
theorem updateArticle_partial_update_semantics_witness :
    updateArticle [artPub] "bbbbbbbbbbbbbbbbbbbbbbbb" "aaaaaaaaaaaaaaaaaaaaaaaa"
        { ArticleBody.empty with title := some "", status := some "bogus" } 9
      = (.err 400 "Invalid status value", [artPub]) :=
  (updateArticle_partial_update_semantics [artPub] "bbbbbbbbbbbbbbbbbbbbbbbb"
    "aaaaaaaaaaaaaaaaaaaaaaaa" artPub
    { ArticleBody.empty with title := some "", status := some "bogus" } 9
    (by decide) (by decide)).1 "bogus" rfl (by decide)

/-- C6 counterexample: `userAccount` holds `a@b.com`; creating an
account with `A@B.com` — the same email under login's lowercasing —
succeeds (201) and grows the store, instead of failing with a
conflict: the duplicate check `Editor.findOne({email})` compares
case-sensitively and does not apply login's normalization. -/
theorem createEditor_case_insensitive_duplicate_allowed :
    jsToLower "A@B.com" = userAccount.email
    ∧ (createEditor [userAccount] adminUser
          ⟨some "N", some "A@B.com", some "p", none⟩ "h2"
          "eeeeeeeeeeeeeeeeeeeeeeee").1
        = .ok 201 { id := "eeeeeeeeeeeeeeeeeeeeeeee", name := "N",
                    email := "A@B.com", password := "h2", role := "user" }
    ∧ (createEditor [userAccount] adminUser
          ⟨some "N", some "A@B.com", some "p", none⟩ "h2"
          "eeeeeeeeeeeeeeeeeeeeeeee").2.length = 2 := by decide

/-- C6 (amended): creating an account with an email *exactly* equal to
an existing account's email fails with 400 "Email already in use" and
leaves the store unchanged; likewise updating one's own profile to an
email exactly held by a different account fails with 400 and leaves
the store unchanged.  Login, and only login, lowercases the email
before lookup, so the account a successful login resolves carries the
lowercased email; the create/update duplicate checks are
case-sensitive (see the counterexample). -/
theorem email_uniqueness_exact_match :
    (∀ (store : List Editor) (user : ReqUser) (b : CreateEditorBody)
        (hashed newId : String),
      isAdmin user = true →
      optTruthy b.name = true → optTruthy b.email = true →
      optTruthy b.password = true →
      (∃ x ∈ store, some x.email = b.email) →
      createEditor store user b hashed newId
        = (.err 400 "Email already in use", store))
    ∧ (∀ (store : List Editor) (callerId : String) (b : UpdateMeBody)
        (ed : Editor) (e : String),
      store.find? (fun x => x.id = callerId) = some ed →
      b.email = some e → e ≠ "" → e ≠ ed.email →
      (∃ x ∈ store, x.email = e ∧ x.id ≠ ed.id) →
      updateMe store callerId b
        = (.err 400 "Email is already in use by another user", store))
    ∧ (∀ (store : List Editor) (email : String) (ed : Editor),
      loginLookup store email = some ed → ed.email = jsToLower email) := by
  refine ⟨?_, ?_, ?_⟩
  · intro store user b hashed newId hadmin hn he hp hdup
    obtain ⟨x, hx, hxe⟩ := hdup
    obtain ⟨em, hem⟩ : ∃ em, b.email = some em := by
      cases hbe : b.email with
      | none => rw [hbe] at he; simp [optTruthy] at he
      | some em => exact ⟨em, rfl⟩
    have hany : (store.any fun x => x.email = b.email.getD "") = true := by
      rw [List.any_eq_true]
      refine ⟨x, hx, ?_⟩
      rw [hem] at hxe ⊢
      simp only [Option.getD_some, decide_eq_true_eq]
      exact Option.some.inj hxe
    unfold createEditor
    rw [if_neg (by simp [hadmin]),
        if_neg (not_not_intro ⟨hn, he, hp⟩), if_pos hany]
  · intro store callerId b ed e hfind he hne hnee hdup
    obtain ⟨x, hx, hxe, hxid⟩ := hdup
    have hcond : optTruthy (some e) = true
        ∧ (some e : Option String) ≠ some ed.email := by
      constructor
      · simpa [optTruthy] using hne
      · intro hc; exact hnee (Option.some.inj hc)
    have hany : (store.any fun x => x.email = e ∧ x.id ≠ ed.id) = true := by
      rw [List.any_eq_true]
      exact ⟨x, hx, by simp [hxe, hxid]⟩
    unfold updateMe
    simp only [hfind, he]
    rw [if_pos hcond]
    simp only [List.any_eq_true, decide_eq_true_eq] at hany
    simp [hany]
  · intro store email ed hlook
    have := List.find?_some hlook
    simpa using this

/-- Witness for `email_uniqueness_exact_match`: an exact duplicate of
`userAccount`'s email is rejected on the create path. -/
theorem email_uniqueness_exact_match_witness :
    createEditor [userAccount] adminUser
        ⟨some "N", some "a@b.com", some "p", none⟩ "h2"
        "eeeeeeeeeeeeeeeeeeeeeeee"
      = (.err 400 "Email already in use", [userAccount]) :=
  email_uniqueness_exact_match.1 [userAccount] adminUser
    ⟨some "N", some "a@b.com", some "p", none⟩ "h2" "eeeeeeeeeeeeeeeeeeeeeeee"
    (by decide) (by decide) (by decide) (by decide)
    ⟨userAccount, by decide, by decide⟩

/-- C8 counterexample: the public single-article route performs no
ObjectId validation, so the malformed identifier `"notanid"` reaches
the store lookup, raises a `CastError`, and surfaces as a 500 server
error — not the 404 the claim requires of every route. -/
theorem publicGetArticle_malformed_id_server_error :
    publicGetArticle [artPub] "notanid" = .err 500 "Server error" := by decide

/-- C8 (amended): only the admin single-article and admin set-status
routes validate the identifier before lookup and map a malformed id to
404; on every other lookup route (owner update, owner read, public
read, and the admin account update/reset-password/delete routes) a
malformed id reaches the store lookup and surfaces as a 500 server
error — with one exception on the delete route: the malformed id
`"undefined"` trips the broken self-deletion guard
(`String(req.user._id)` is `"undefined"` for every token-authenticated
caller, whose payload has no `_id` key) and returns 400 before any
lookup. -/
theorem malformed_id_handling
    (artStore : List Article) (edStore : List Editor) (user : ReqUser)
    (caller badId st : String) (b : ArticleBody) (now : Nat)
    (hbad : isValidObjectId badId = false)
    (hadmin : isAdmin user = true)
    (hst : st ∈ allowedStatuses)
    (huser : user.underscoreId = none) :
    adminGetArticle artStore user badId = .err 404 "Article not found"
    ∧ adminSetStatus artStore user badId (some st) now
        = (.err 404 "Article not found", artStore)
    ∧ updateArticle artStore caller badId b now
        = (.err 500 "Server error", artStore)
    ∧ editorGetArticle artStore caller badId = .err 500 "Server error"
    ∧ publicGetArticle artStore badId = .err 500 "Server error"
    ∧ (badId ≠ "undefined" →
        deleteEditor edStore user badId = (.err 500 "Server error", edStore))
    ∧ deleteEditor edStore user "undefined"
        = (.err 400 "You cannot delete your own admin account", edStore)
    ∧ updateEditor edStore user badId none none none
        = (.err 500 "Server error", edStore)
    ∧ resetPassword edStore user badId "h"
        = (.err 500 "Server error", edStore) := by
  have hnotadmin : ¬ ¬ isAdmin user = true := not_not_intro hadmin
  have hinvalid : ¬ isValidObjectId badId = true := by simp [hbad]
  have hjs : jsString user.underscoreId = "undefined" := by
    rw [huser]; rfl
  refine ⟨?_, ?_, ?_, ?_, ?_, ?_, ?_, ?_, ?_⟩
  · unfold adminGetArticle
    rw [if_neg hnotadmin, if_pos hinvalid]
  · unfold adminSetStatus
    rw [if_neg hnotadmin]
    simp only []
    rw [if_neg (not_not_intro hst), if_pos hinvalid]
  · unfold updateArticle
    rw [if_pos hinvalid]
  · unfold editorGetArticle
    rw [if_pos hinvalid]
  · unfold publicGetArticle
    rw [if_pos hinvalid]
  · intro hne
    unfold deleteEditor
    rw [if_neg hnotadmin, if_neg (by rw [hjs]; exact fun h => hne h.symm),
        if_pos hinvalid]
  · unfold deleteEditor
    rw [if_neg hnotadmin, if_pos (by rw [hjs])]
  · unfold updateEditor
    rw [if_neg hnotadmin, if_pos hinvalid]
  · unfold resetPassword
    rw [if_neg hnotadmin, if_pos hinvalid]

/-- Witness for `malformed_id_handling` at the malformed id `"x"`,
exercising the public 500, the delete-route 500, and the delete-route
400 at the exceptional id `"undefined"`. -/
theorem malformed_id_handling_witness :
    publicGetArticle [artPub] "x" = .err 500 "Server error"
    ∧ deleteEditor [adminAccount] adminUser "x"
        = (.err 500 "Server error", [adminAccount])
    ∧ deleteEditor [adminAccount] adminUser "undefined"
        = (.err 400 "You cannot delete your own admin account",
           [adminAccount]) :=
  ⟨(malformed_id_handling [artPub] [adminAccount] adminUser
      "bbbbbbbbbbbbbbbbbbbbbbbb" "x" "draft" ArticleBody.empty 9
      (by decide) (by decide) (by decide) (by decide)).2.2.2.2.1,
   (malformed_id_handling [artPub] [adminAccount] adminUser
      "bbbbbbbbbbbbbbbbbbbbbbbb" "x" "draft" ArticleBody.empty 9
      (by decide) (by decide) (by decide) (by decide)).2.2.2.2.2.1
      (by decide),
   (malformed_id_handling [artPub] [adminAccount] adminUser
      "bbbbbbbbbbbbbbbbbbbbbbbb" "x" "draft" ArticleBody.empty 9
      (by decide) (by decide) (by decide) (by decide)).2.2.2.2.2.2.1⟩

/-- C9: creating an article with truthy title and content succeeds,
appends a single article to the store, owned by the caller, with
categories produced by `normalizeCategories` (`["latest"]` when the
key is absent), with status equal to the supplied status when a
non-empty one is given and `"draft"` otherwise (the handler computes
`status || "draft"`), and with `publishedAt` set (to the creation
time) exactly when the resulting status is `"published"`. -/
theorem createArticle_defaults
    (store : List Article) (authorId newId : String) (b : ArticleBody)
    (now : Nat)
    (htitle : optTruthy b.title = true)
    (hcontent : optTruthy b.content = true) :
    ∃ a, createArticle store authorId b newId now = (.ok 201 a, store ++ [a])
      ∧ a.author = authorId
      ∧ a.categories = normalizeCategories b.categories
      ∧ (b.categories = none → a.categories = ["latest"])
      ∧ (∀ s, b.status = some s → s ≠ "" → a.status = s)
      ∧ ((b.status = none ∨ b.status = some "") → a.status = "draft")
      ∧ (a.publishedAt = none ∨ a.publishedAt = some now)
      ∧ (¬ a.publishedAt = none ↔ a.status = "published") := by
  unfold createArticle
  rw [if_neg (not_not_intro ⟨htitle, hcontent⟩)]
  refine ⟨_, rfl, rfl, rfl,
    fun hc => by rw [hc]; show normalizeCategories none = ["latest"]; decide,
    ?_, ?_, ?_, ?_⟩
  · intro s hs hne
    simp [hs, jsOr, hne]
  · rintro (hs | hs) <;> simp [hs, jsOr]
  · by_cases hp : b.status = some "published" <;> simp [hp]
  · constructor
    · intro hp
      by_cases hps : b.status = some "published"
      · simp [hps, jsOr]
      · simp [hps] at hp
    · intro hs
      cases hbs : b.status with
      | none => rw [hbs] at hs; simp [jsOr] at hs
      | some s =>
        rw [hbs] at hs
        by_cases hse : s = ""
        · rw [hse] at hs; simp [jsOr] at hs
        · simp only [jsOr, if_neg hse] at hs
          simp [hbs, hs]

/-- Witness for `createArticle_defaults`: the spec's scenario — title
`"A"`, content `"B"`, no categories, no status. -/
theorem createArticle_defaults_witness :
    (createArticle [] "bbbbbbbbbbbbbbbbbbbbbbbb"
        { ArticleBody.empty with title := some "A", content := some "B" }
        "aaaaaaaaaaaaaaaaaaaaaaaa" 9).2.map
          (fun a => (a.categories, a.status, a.publishedAt))
      = [(["latest"], "draft", none)] := by
  obtain ⟨a, heq, _, _, hcats, _, hdraft, _, hpub⟩ :=
    createArticle_defaults [] "bbbbbbbbbbbbbbbbbbbbbbbb"
      "aaaaaaaaaaaaaaaaaaaaaaaa"
      { ArticleBody.empty with title := some "A", content := some "B" }
      9 (by decide) (by decide)
  rw [heq]
  have h1 : a.categories = ["latest"] := hcats rfl
  have h2 : a.status = "draft" := hdraft (Or.inl rfl)
  have h3 : a.publishedAt = none := by
    by_contra hc
    have := hpub.mp hc
    rw [h2] at this
    exact absurd this (by decide)
  simp [h1, h2, h3]

/-- C10: the admin create-account handler stores every new account with
role `"user"` (the body's `role` key is never read), so any account
added by it has role `"user"`; the owner-profile, change-password and
reset-password operations preserve every account's role and deletion
adds no account — so among the embedded identity-store operations an
admin-role account can only arise from the bootstrap seed
(`createInitialAdmin`) or from the account-update handler's `role`
field, both of which are exhibited concretely. -/
theorem createEditor_role_always_user :
    (∀ (store : List Editor) (user : ReqUser) (b : CreateEditorBody)
        (hashed newId : String) (e : Editor),
      e ∈ (createEditor store user b hashed newId).2 →
      e ∈ store ∨ e.role = "user")
    ∧ (∀ (store : List Editor) (callerId : String) (b : UpdateMeBody)
        (e : Editor),
      e ∈ (updateMe store callerId b).2 →
      ∃ e0 ∈ store, e.id = e0.id ∧ e.role = e0.role)
    ∧ (∀ (store : List Editor) (callerId : String)
        (cur new : Option String) (cmp : String → String → Bool)
        (newHashed : String) (e : Editor),
      e ∈ (changePassword store callerId cur new cmp newHashed).2 →
      ∃ e0 ∈ store, e.id = e0.id ∧ e.role = e0.role)
    ∧ (∀ (store : List Editor) (user : ReqUser) (targetId newHashed : String)
        (e : Editor),
      e ∈ (resetPassword store user targetId newHashed).2 →
      ∃ e0 ∈ store, e.id = e0.id ∧ e.role = e0.role)
    ∧ (∀ (store : List Editor) (user : ReqUser) (targetId : String)
        (e : Editor),
      e ∈ (deleteEditor store user targetId).2 → e ∈ store)
    ∧ (updateEditor [userAccount] adminUser "dddddddddddddddddddddddd"
        none none (some "admin")).2.map Editor.role = ["admin"]
    ∧ (createInitialAdmin [] "h" "cccccccccccccccccccccccc").map Editor.role
        = ["admin"] := by
  refine ⟨?_, ?_, ?_, ?_, ?_, by decide, by decide⟩
  · intro store user b hashed newId e he
    unfold createEditor at he
    split at he
    · exact Or.inl he
    · split at he
      · exact Or.inl he
      · split at he
        · exact Or.inl he
        · simp only [List.mem_append, List.mem_singleton] at he
          rcases he with he | he
          · exact Or.inl he
          · exact Or.inr (by rw [he])
  · intro store callerId b e he
    unfold updateMe at he
    cases hfindeq : store.find? fun x => x.id = callerId with
    | none =>
      simp only [hfindeq] at he
      exact ⟨e, he, rfl, rfl⟩
    | some editor =>
      simp only [hfindeq] at he
      have hed : editor ∈ store := List.mem_of_find?_eq_some hfindeq
      by_cases hc : optTruthy b.email = true ∧ b.email ≠ some editor.email
      · rw [if_pos hc] at he
        cases hbe : b.email with
        | none =>
          rw [hbe] at hc
          exact absurd hc.1 (by simp [optTruthy])
        | some em =>
          simp only [hbe] at he
          by_cases hd : (store.any fun x => x.email = em ∧ x.id ≠ editor.id) = true
          · rw [if_pos hd] at he
            exact ⟨e, he, rfl, rfl⟩
          · rw [if_neg hd] at he
            rcases mem_saveEditor _ _ _ he with rfl | hmem
            · by_cases hn : optTruthy b.name = true
              · exact ⟨editor, hed, by simp [hn]⟩
              · exact ⟨editor, hed, by simp [hn]⟩
            · exact ⟨e, hmem, rfl, rfl⟩
      · rw [if_neg hc] at he
        rcases mem_saveEditor _ _ _ he with rfl | hmem
        · by_cases hn : optTruthy b.name = true
          · exact ⟨editor, hed, by simp [hn]⟩
          · exact ⟨editor, hed, by simp [hn]⟩
        · exact ⟨e, hmem, rfl, rfl⟩
  · intro store callerId cur new cmp newHashed e he
    unfold changePassword at he
    split at he
    · exact ⟨e, he, rfl, rfl⟩
    · split at he
      · exact ⟨e, he, rfl, rfl⟩
      · rename_i editor hfindeq
        have hed : editor ∈ store := List.mem_of_find?_eq_some hfindeq
        split at he
        · exact ⟨e, he, rfl, rfl⟩
        · rcases mem_saveEditor _ _ _ he with rfl | hmem
          · exact ⟨editor, hed, rfl, rfl⟩
          · exact ⟨e, hmem, rfl, rfl⟩
  · intro store user targetId newHashed e he
    unfold resetPassword at he
    split at he
    · exact ⟨e, he, rfl, rfl⟩
    · split at he
      · exact ⟨e, he, rfl, rfl⟩
      · split at he
        · exact ⟨e, he, rfl, rfl⟩
        · rename_i editor hfindeq
          have hed : editor ∈ store := List.mem_of_find?_eq_some hfindeq
          rcases mem_saveEditor _ _ _ he with rfl | hmem
          · exact ⟨editor, hed, rfl, rfl⟩
          · exact ⟨e, hmem, rfl, rfl⟩
  · intro store user targetId e he
    unfold deleteEditor at he
    split at he
    · exact he
    · split at he
      · exact he
      · split at he
        · exact he
        · split at he
          · exact he
          · exact (List.mem_filter.mp he).1

/-- Witness for `createEditor_role_always_user`: an account created
while the request supplies `role: "admin"` still lands with role
`"user"`. -/
theorem createEditor_role_always_user_witness :
    ({ id := "ffffffffffffffffffffffff", name := "N", email := "x@y.com",
       password := "h", role := "user" } : Editor) ∈ ([] : List Editor)
    ∨ ({ id := "ffffffffffffffffffffffff", name := "N", email := "x@y.com",
         password := "h", role := "user" } : Editor).role = "user" :=
  createEditor_role_always_user.1 [] adminUser
    ⟨some "N", some "x@y.com", some "p", some "admin"⟩ "h"
    "ffffffffffffffffffffffff" _ (by decide)

end NewsOne
